import Mathlib

/-!
Verification of the ConsoleContactManager contact store (`src/main.py`,
`src/models.py`).

The Python code is shallowly embedded: raw JSON records become association
lists of dynamically typed values (`RawContact`), the pydantic `ContactModel`
becomes the structure `Contact`, and the `PhoneBook` class becomes a record of
its in-memory entries, its `next_id` counter and the content last written to
the storage file.  Each Python method that the claims refer to is translated
into an executable Lean function, and the claims are settled as theorems about
those functions.
-/

set_option autoImplicit false

namespace ContactManager

/-- A dynamically typed Python value, restricted to the shapes that the
validator distinguishes: integers, strings, and anything else (`vOther`
stands for any value that is neither an `int` nor a `str`). -/
inductive PyVal where
  | vInt (n : Int)
  | vStr (s : String)
  | vOther
  deriving DecidableEq

/-- A raw record as loaded from JSON: a Python `dict` modelled as an
association list of key/value pairs (JSON objects have distinct keys and
preserve insertion order). -/
abbrev RawContact := List (String × PyVal)

/-- The expected Python type of a field, from `PhoneBook.FIELD_TYPES`:
`int`, `str`, or the union `str | int`. -/
inductive FieldTy where
  | tyInt
  | tyStr
  | tyStrOrInt
  deriving DecidableEq

/-- `PhoneBook.FIELD_TYPES` (src/main.py lines 11-19): the schema mapping
each of the seven field names to its expected Python type.  Note that
`work_phone` and `personal_phone` are declared as `str | int`. -/
def FIELD_TYPES : List (String × FieldTy) :=
  [("id", .tyInt),
   ("first_name", .tyStr),
   ("middle_name", .tyStr),
   ("last_name", .tyStr),
   ("organization", .tyStr),
   ("work_phone", .tyStrOrInt),
   ("personal_phone", .tyStrOrInt)]

/-- Lookup of a key in the `FIELD_TYPES` dict (`contact_key in
self.FIELD_TYPES` plus `self.FIELD_TYPES[contact_key]`), written as a
key-by-key lookup of the same seven entries. -/
def fieldType (k : String) : Option FieldTy :=
  if k = "id" then some .tyInt
  else if k = "first_name" then some .tyStr
  else if k = "middle_name" then some .tyStr
  else if k = "last_name" then some .tyStr
  else if k = "organization" then some .tyStr
  else if k = "work_phone" then some .tyStrOrInt
  else if k = "personal_phone" then some .tyStrOrInt
  else none

/-- Python's `isinstance(value, ty)` for the three type expressions used by
the schema. -/
def checkVal : FieldTy → PyVal → Bool
  | .tyInt, .vInt _ => true
  | .tyStr, .vStr _ => true
  | .tyStrOrInt, .vInt _ => true
  | .tyStrOrInt, .vStr _ => true
  | _, _ => false

/-- The structural check applied to each raw record by both
`validate_contact` (src/main.py lines 42-54) and the per-record loop of
`validate_contacts` (lines 86-95): seven entries, every key known, every
value of the declared type. -/
def validRecord (c : RawContact) : Bool :=
  c.length == FIELD_TYPES.length &&
    c.all (fun kv =>
      match fieldType kv.1 with
      | none => false
      | some t => checkVal t kv.2)

/-- `contact['id']` on a record that passed the structural check (where the
key is present and holds an `int`); on other records it defaults to `0`. -/
def getId (c : RawContact) : Int :=
  match c.find? (fun kv => kv.1 == "id") with
  | some (_, .vInt n) => n
  | _ => 0

/-- `contact['id'] = n`: replace the value stored under the key `"id"`. -/
def setId (c : RawContact) (n : Int) : RawContact :=
  c.map (fun kv => if kv.1 == "id" then (kv.1, PyVal.vInt n) else kv)

/-- Python's `max(item['id'] for item in l)` over a nonempty list of raw
records (junk value `0` on the empty list, on which the source never calls
it). -/
def maxIdOf : List RawContact → Int
  | [] => 0
  | c :: cs => cs.foldl (fun m x => max m (getId x)) (getId c)

/-- The renumbering pass of `validate_contacts` (src/main.py lines 106-108):
the record at 0-based position `i` of the colliding group receives the new
id `maxId + i + 1` (`enumerate(invalid_data, start=1)`). -/
def renumber (maxId : Int) (inv : List RawContact) : List RawContact :=
  inv.enum.map (fun p => setId p.2 (maxId + p.1 + 1))

/-- The main loop of `validate_contacts` (src/main.py lines 86-102), with the
three accumulators `result_data`, `invalid_data` and `processed_ids` made
explicit; returns the final `result_data` and `invalid_data`. -/
def validateLoop : List RawContact → List RawContact → List RawContact →
    List Int → List RawContact × List RawContact
  | [], res, inv, _ => (res, inv)
  | c :: cs, res, inv, pids =>
    if validRecord c then
      if pids.contains (getId c) then
        validateLoop cs res (inv ++ [c]) pids
      else
        validateLoop cs (res ++ [c]) inv (pids ++ [getId c])
    else
      validateLoop cs res inv pids

/-- `PhoneBook.validate_contacts` (src/main.py lines 74-110): drop
structurally invalid records, separate id collisions, then renumber the
colliding records from `max_id = max(item['id'] for item in invalid_data)`
and append them. -/
def validate_contacts (json_data : List RawContact) : List RawContact :=
  let p := validateLoop json_data [] [] []
  if p.2.isEmpty then p.1
  else p.1 ++ renumber (maxIdOf p.2) p.2

/-- Specification-style restatement of the dedup pass: walk the input once,
splitting the structurally valid records into the accepted ones (first
occurrence of each id) and the colliding ones, relative to a set `seen` of
ids already accepted. -/
def splitUnique (seen : List Int) : List RawContact →
    List RawContact × List RawContact
  | [] => ([], [])
  | c :: cs =>
    if validRecord c then
      if seen.contains (getId c) then
        let p := splitUnique seen cs
        (p.1, c :: p.2)
      else
        let p := splitUnique (seen ++ [getId c]) cs
        (c :: p.1, p.2)
    else
      splitUnique seen cs

/-- The validator exactly as the specification document words it: the base
`max_id` of the renumbering is the highest id among the ACCEPTED
(non-colliding) records.  This definition follows the spec's words, to be
compared with `validate_contacts`, which follows the source. -/
def validateSpecClaimed (json_data : List RawContact) : List RawContact :=
  let p := splitUnique [] json_data
  if p.2.isEmpty then p.1
  else p.1 ++ renumber (maxIdOf p.1) p.2

theorem validateLoop_eq_splitUnique (cs : List RawContact) :
    ∀ res inv pids, validateLoop cs res inv pids =
      (res ++ (splitUnique pids cs).1, inv ++ (splitUnique pids cs).2) := by
  induction cs with
  | nil => intro res inv pids; simp [validateLoop, splitUnique]
  | cons c cs ih =>
    intro res inv pids
    simp only [validateLoop, splitUnique]
    by_cases hv : validRecord c
    · simp only [hv, if_pos]
      by_cases hm : getId c ∈ pids
      · simp [hm, ih]
      · simp [hm, ih]
    · simp [hv, ih]

/-- A structurally valid raw record with the given id (an arbitrary but
concrete choice of the six text fields), used as concrete input for the
validator. -/
def exRaw (i : Int) : RawContact :=
  [("id", .vInt i),
   ("first_name", .vStr "Ann"),
   ("middle_name", .vStr "B"),
   ("last_name", .vStr "Smith"),
   ("organization", .vStr "Org"),
   ("work_phone", .vStr "111"),
   ("personal_phone", .vStr "222")]

/-- A raw record whose `work_phone` holds a Python `int` instead of a string;
it nevertheless satisfies the schema `FIELD_TYPES`, which declares
`work_phone` as `str | int`. -/
def exRawIntPhone : RawContact :=
  [("id", .vInt 1),
   ("first_name", .vStr "Ann"),
   ("middle_name", .vStr "B"),
   ("last_name", .vStr "Smith"),
   ("organization", .vStr "Org"),
   ("work_phone", .vInt 555),
   ("personal_phone", .vStr "222")]

theorem setId_valid {c : RawContact} (h : validRecord c = true) (n : Int) :
    validRecord (setId c n) = true := by
  simp only [validRecord, Bool.and_eq_true, beq_iff_eq, List.all_eq_true] at h ⊢
  obtain ⟨hlen, hall⟩ := h
  refine ⟨by simpa [setId] using hlen, ?_⟩
  intro kv hkv
  simp only [setId, List.mem_map] at hkv
  obtain ⟨kv₀, hkv₀, hmap⟩ := hkv
  by_cases hid : kv₀.1 == "id"
  · simp only [hid, if_pos] at hmap
    subst hmap
    have : kv₀.1 = "id" := by simpa using hid
    simp [this, fieldType, checkVal]
  · simp only [hid, if_neg, Bool.false_eq_true, not_false_iff] at hmap
    subst hmap
    exact hall kv₀ hkv₀

theorem splitUnique_mem_valid (d : List RawContact) :
    ∀ seen c, (c ∈ (splitUnique seen d).1 ∨ c ∈ (splitUnique seen d).2) →
      validRecord c = true := by
  induction d with
  | nil => intro seen c hc; simp [splitUnique] at hc
  | cons x xs ih =>
    intro seen c hc
    by_cases hv : validRecord x
    · by_cases hm : getId x ∈ seen
      · simp only [splitUnique, hv, if_pos] at hc
        rw [if_pos (by simpa using hm)] at hc
        simp only [List.mem_cons] at hc
        rcases hc with h | h | h
        · exact ih seen c (Or.inl h)
        · exact h ▸ hv
        · exact ih seen c (Or.inr h)
      · simp only [splitUnique, hv, if_pos] at hc
        rw [if_neg (by simpa using hm)] at hc
        simp only [List.mem_cons] at hc
        rcases hc with (h | h) | h
        · exact h ▸ hv
        · exact ih (seen ++ [getId x]) c (Or.inl h)
        · exact ih (seen ++ [getId x]) c (Or.inr h)
    · simp only [splitUnique, hv, Bool.false_eq_true, if_neg,
        not_false_iff] at hc
      exact ih seen c hc

theorem mem_renumber_valid {inv : List RawContact} {m : Int} {c : RawContact}
    (hinv : ∀ x ∈ inv, validRecord x = true) (hc : c ∈ renumber m inv) :
    validRecord c = true := by
  simp only [renumber, List.mem_map] at hc
  obtain ⟨⟨k, x⟩, hmem, rfl⟩ := hc
  have h2 := List.mem_enum hmem
  exact setId_valid (hinv x (h2.2 ▸ List.getElem_mem h2.1)) _

theorem mem_validate_contacts_valid {d : List RawContact} {c : RawContact}
    (hc : c ∈ validate_contacts d) : validRecord c = true := by
  simp only [validate_contacts, validateLoop_eq_splitUnique, List.nil_append] at hc
  by_cases he : (splitUnique [] d).2.isEmpty
  · simp only [he, if_pos] at hc
    exact splitUnique_mem_valid d [] c (Or.inl hc)
  · simp only [he, Bool.false_eq_true, if_neg, not_false_iff,
      List.mem_append] at hc
    rcases hc with h | h
    · exact splitUnique_mem_valid d [] c (Or.inl h)
    · exact mem_renumber_valid (fun x hx => splitUnique_mem_valid d [] x (Or.inr hx)) h

/-- The per-key type check, characterised as the disjunction over the seven
declared fields. -/
theorem fieldCheck_iff (k : String) (v : PyVal) :
    (match fieldType k with
      | none => false
      | some t => checkVal t v) = true ↔
    ((k = "id" ∧ ∃ n, v = PyVal.vInt n) ∨
     ((k = "first_name" ∨ k = "middle_name" ∨ k = "last_name" ∨
       k = "organization") ∧ ∃ s, v = PyVal.vStr s) ∨
     ((k = "work_phone" ∨ k = "personal_phone") ∧
       ((∃ s, v = PyVal.vStr s) ∨ ∃ n, v = PyVal.vInt n))) := by
  by_cases h1 : k = "id"
  · subst h1; cases v <;> simp [fieldType, checkVal]
  · by_cases h2 : k = "first_name"
    · subst h2; cases v <;> simp [fieldType, checkVal]
    · by_cases h3 : k = "middle_name"
      · subst h3; cases v <;> simp [fieldType, checkVal]
      · by_cases h4 : k = "last_name"
        · subst h4; cases v <;> simp [fieldType, checkVal]
        · by_cases h5 : k = "organization"
          · subst h5; cases v <;> simp [fieldType, checkVal]
          · by_cases h6 : k = "work_phone"
            · subst h6; cases v <;> simp [fieldType, checkVal]
            · by_cases h7 : k = "personal_phone"
              · subst h7; cases v <;> simp [fieldType, checkVal]
              · simp [fieldType, h1, h2, h3, h4, h5, h6, h7]

/-- C1 (amended): `validate_contacts` splits the input into accepted records
(first structurally valid occurrence of each id, kept in original order) and
colliding records (in encounter order), then appends the colliding records
renumbered to `max_id + k` for 1-based position `k` — where `max_id` is the
highest id among the COLLIDING records themselves (src/main.py line 105),
not among the accepted ones. -/
theorem validate_contacts_renumbers_from_colliding_max
    (json_data : List RawContact) :
    validate_contacts json_data =
      (splitUnique [] json_data).1 ++
        ((splitUnique [] json_data).2.enum.map
          (fun p => setId p.2 (maxIdOf (splitUnique [] json_data).2 + p.1 + 1))) := by
  simp only [validate_contacts, validateLoop_eq_splitUnique, List.nil_append]
  by_cases he : (splitUnique [] json_data).2.isEmpty
  · rw [if_pos he, List.isEmpty_iff.mp he]
    simp [List.enum]
  · rw [if_neg he]
    rfl

/-- C1 counterexample: on the raw input `[id 10, id 3, id 3]` the source
renumbers the second `id 3` record to `max(colliding ids) + 1 = 4`, while the
claim (base `max_id` = highest id among the accepted records, here `10`)
demands `11`; the two results differ. -/
theorem validate_contacts_claimed_base_counterexample :
    validate_contacts [exRaw 10, exRaw 3, exRaw 3] ≠
      validateSpecClaimed [exRaw 10, exRaw 3, exRaw 3] ∧
    (validate_contacts [exRaw 10, exRaw 3, exRaw 3]).map getId = [10, 3, 4] ∧
    (validateSpecClaimed [exRaw 10, exRaw 3, exRaw 3]).map getId = [10, 3, 11] := by
  refine ⟨?_, by decide, by decide⟩
  decide

/-- C2: loading the structurally valid raw input `[id 3, id 3, id 4]` makes
the validator renumber the colliding record to `max(colliding ids) + 1 = 4`,
which collides with the accepted record of id 4: the store then holds ids
`[3, 4, 4]`, violating the id-uniqueness invariant. -/
theorem validate_contacts_duplicate_ids_bug :
    (validate_contacts [exRaw 3, exRaw 3, exRaw 4]).map getId = [3, 4, 4] ∧
    ¬ ((validate_contacts [exRaw 3, exRaw 3, exRaw 4]).map getId).Nodup := by
  refine ⟨by decide, by decide⟩

/-- C5 (amended): the structural check accepts a raw record iff it has
exactly 7 entries and each entry is one of the declared fields with a value
of the declared Python type — `id` an integer; `first_name`, `middle_name`,
`last_name` and `organization` strings; `work_phone` and `personal_phone`
either a string OR an integer (`str | int` in `FIELD_TYPES`).  Records
failing the check never appear in the validator's output. -/
theorem validRecord_iff_schema :
    (∀ c : RawContact, validRecord c = true ↔
      (c.length = 7 ∧ ∀ kv ∈ c,
        (kv.1 = "id" ∧ ∃ n, kv.2 = PyVal.vInt n) ∨
        ((kv.1 = "first_name" ∨ kv.1 = "middle_name" ∨ kv.1 = "last_name" ∨
          kv.1 = "organization") ∧ ∃ s, kv.2 = PyVal.vStr s) ∨
        ((kv.1 = "work_phone" ∨ kv.1 = "personal_phone") ∧
          ((∃ s, kv.2 = PyVal.vStr s) ∨ ∃ n, kv.2 = PyVal.vInt n)))) ∧
    (∀ (d : List RawContact) (c : RawContact), validRecord c = false →
      c ∉ validate_contacts d) := by
  constructor
  · intro c
    simp only [validRecord, Bool.and_eq_true, beq_iff_eq, List.all_eq_true]
    constructor
    · rintro ⟨hlen, hall⟩
      refine ⟨hlen, fun kv hkv => (fieldCheck_iff kv.1 kv.2).mp (hall kv hkv)⟩
    · rintro ⟨hlen, hall⟩
      refine ⟨hlen, fun kv hkv => (fieldCheck_iff kv.1 kv.2).mpr (hall kv hkv)⟩
  · intro d c hbad hc
    rw [mem_validate_contacts_valid hc] at hbad
    exact Bool.noConfusion hbad

/-- C5 witness: a record with a string missing (6 entries) is invalid, and a
fully well-typed record is valid; applying the characterisation at these
concrete records, plus the dropping clause on a concrete load. -/
theorem validRecord_iff_schema_witness :
    validRecord (exRaw 1) = true ∧
    ((exRaw 1).length = 7 ∧ ∀ kv ∈ exRaw 1,
        (kv.1 = "id" ∧ ∃ n, kv.2 = PyVal.vInt n) ∨
        ((kv.1 = "first_name" ∨ kv.1 = "middle_name" ∨ kv.1 = "last_name" ∨
          kv.1 = "organization") ∧ ∃ s, kv.2 = PyVal.vStr s) ∨
        ((kv.1 = "work_phone" ∨ kv.1 = "personal_phone") ∧
          ((∃ s, kv.2 = PyVal.vStr s) ∨ ∃ n, kv.2 = PyVal.vInt n))) ∧
    [("id", PyVal.vInt 1)] ∉ validate_contacts [[("id", PyVal.vInt 1)]] := by
  refine ⟨by decide, (validRecord_iff_schema.1 (exRaw 1)).mp (by decide),
    validRecord_iff_schema.2 [[("id", PyVal.vInt 1)]] [("id", PyVal.vInt 1)]
      (by decide)⟩

/-- C5 counterexample: a raw record whose `work_phone` holds an integer
rather than text passes the structural check and survives the validator — it
is not dropped, contrary to the claim that only text is accepted in the six
non-id fields. -/
theorem validRecord_int_phone_counterexample :
    validRecord exRawIntPhone = true ∧
    validate_contacts [exRawIntPhone] = [exRawIntPhone] ∧
    validate_contacts [exRawIntPhone] ≠ [] := by
  refine ⟨by decide, by decide, by decide⟩

/-- `ContactModel` (src/models.py): a contact record with its seven typed
fields. -/
structure Contact where
  id : Int
  first_name : String
  last_name : String
  middle_name : String
  organization : String
  work_phone : String
  personal_phone : String
  deriving DecidableEq

/-- The state of a `PhoneBook` (src/main.py lines 24-29): the in-memory
entries, the `next_id` counter, and the contact list most recently written to
the storage file by `save_contact` (the file system made explicit). -/
structure PhoneBook where
  entries : List Contact
  next_id : Int
  file : List Contact
  deriving DecidableEq

/-- `PhoneBook.get_next_id` (src/main.py lines 31-40): `max(contact.id for
contact in self.entries) + 1` when entries exist, else `1`. -/
def get_next_id : List Contact → Int
  | [] => 1
  | c :: cs => cs.foldl (fun m x => max m x.id) c.id + 1

/-- The `contact_data` dict built by `add_contact` (src/main.py lines
140-148) from a contact's fields, in the source's key order. -/
def contactToRaw (c : Contact) : RawContact :=
  [("id", .vInt c.id),
   ("first_name", .vStr c.first_name),
   ("last_name", .vStr c.last_name),
   ("middle_name", .vStr c.middle_name),
   ("organization", .vStr c.organization),
   ("work_phone", .vStr c.work_phone),
   ("personal_phone", .vStr c.personal_phone)]

/-- `PhoneBook.validate_contact` (src/main.py lines 42-54): the same
field-count and type check as the per-record loop of `validate_contacts`. -/
def validate_contact (c : RawContact) : Bool := validRecord c

/-- The six text values the CLI collects with `input()` for `add_contact`
and `edit_contact`. -/
structure FieldsInput where
  first_name : String
  last_name : String
  middle_name : String
  organization : String
  work_phone : String
  personal_phone : String
  deriving DecidableEq

/-- The contact built by `add_contact` from `next_id` and the entered
fields. -/
def mkContact (nid : Int) (inp : FieldsInput) : Contact :=
  ⟨nid, inp.first_name, inp.last_name, inp.middle_name, inp.organization,
   inp.work_phone, inp.personal_phone⟩

/-- `PhoneBook.add_contact` (src/main.py lines 125-156): build the record
with `id = next_id`, validate it, and on success append it, save, and
increment `next_id`; on failure leave the book untouched. -/
def add_contact (pb : PhoneBook) (inp : FieldsInput) : PhoneBook :=
  let c := mkContact pb.next_id inp
  if validate_contact (contactToRaw c) then
    { entries := pb.entries ++ [c], next_id := pb.next_id + 1,
      file := pb.entries ++ [c] }
  else pb

/-- A sequence of `add_contact` calls. -/
def add_seq (pb : PhoneBook) : List FieldsInput → PhoneBook
  | [] => pb
  | inp :: rest => add_seq (add_contact pb inp) rest

/-- The `PhoneBook` created on an absent storage file: no entries, and
`next_id = get_next_id []`. -/
def emptyBook : PhoneBook :=
  { entries := [], next_id := get_next_id [], file := [] }

/-- `PhoneBook.sort_contacts` (src/main.py lines 56-62):
`self.entries.sort(key=lambda contact: contact.id)`.  Insertion sort with
`≤` on ids is, like Python's sort, stable: records with equal ids keep
their relative order. -/
def sort_contacts (entries : List Contact) : List Contact :=
  entries.insertionSort (fun a b => a.id ≤ b.id)

/-- Python's `input(...) or default` in `edit_contact` (src/main.py lines
173-184): an empty entered string keeps the existing value. -/
def orDefault (inp old : String) : String :=
  if inp = "" then old else inp

/-- The `contact.model_copy(update=...)` call of `edit_contact` (src/main.py
lines 186-195): every field merged through `or`, the id untouched. -/
def applyEdit (c : Contact) (inp : FieldsInput) : Contact :=
  { c with
    first_name := orDefault inp.first_name c.first_name,
    last_name := orDefault inp.last_name c.last_name,
    middle_name := orDefault inp.middle_name c.middle_name,
    organization := orDefault inp.organization c.organization,
    work_phone := orDefault inp.work_phone c.work_phone,
    personal_phone := orDefault inp.personal_phone c.personal_phone }

/-- `PhoneBook.edit_contact` (src/main.py lines 158-205) for one entered id:
find the first entry with that id; if present, remove it, append the merged
replacement, re-sort by id and save; otherwise report not-found and leave
the book untouched. -/
def edit_contact (pb : PhoneBook) (cid : Int) (inp : FieldsInput) : PhoneBook :=
  match pb.entries.find? (fun c => c.id == cid) with
  | none => pb
  | some c =>
      let entries := sort_contacts (pb.entries.erase c ++ [applyEdit c inp])
      { entries := entries, next_id := pb.next_id, file := entries }

/-- The `fields_values` dict assembled by `_get_search_values` (src/main.py
lines 233-273): for each of the seven fields, either absent or a concrete
search value (`id` an integer, the rest text). -/
structure Criteria where
  id : Option Int
  first_name : Option String
  last_name : Option String
  middle_name : Option String
  organization : Option String
  work_phone : Option String
  personal_phone : Option String
  deriving DecidableEq

/-- The criteria dict with no entries. -/
def emptyCriteria : Criteria := ⟨none, none, none, none, none, none, none⟩

/-- A check that is vacuously true when the criteria field is absent. -/
def optCheck {α : Type} (o : Option α) (p : α → Bool) : Bool :=
  match o with
  | none => true
  | some v => p v

/-- Python's `str.lower()`: character-wise lowercasing (the arguments in
this development are ASCII, where the two coincide). -/
def strLower (s : String) : String := ⟨s.data.map Char.toLower⟩

/-- The per-record matching loop of `search_contact` (src/main.py lines
288-318): a record matches iff every present criteria field matches — `id`
by equality, `first_name`/`last_name`/`middle_name`/`organization` by
lowercased equality, and `work_phone`/`personal_phone` by plain (case
sensitive) equality. -/
def matchesCriteria (fv : Criteria) (c : Contact) : Bool :=
  optCheck fv.id (fun v => c.id == v) &&
  optCheck fv.first_name (fun v => strLower c.first_name == strLower v) &&
  optCheck fv.last_name (fun v => strLower c.last_name == strLower v) &&
  optCheck fv.middle_name (fun v => strLower c.middle_name == strLower v) &&
  optCheck fv.organization (fun v => strLower c.organization == strLower v) &&
  optCheck fv.work_phone (fun v => c.work_phone == v) &&
  optCheck fv.personal_phone (fun v => c.personal_phone == v)

/-- `PhoneBook.search_contact` (src/main.py lines 275-326), reduced to its
store-level content: the records of the collection that satisfy the entered
criteria, in collection order. -/
def search_contact (entries : List Contact) (fv : Criteria) : List Contact :=
  entries.filter (matchesCriteria fv)

/-- Modelled from the spec: the source has no remove operation (the menu of
`main` offers only show/add/edit/search/exit), so `remove(id)` is taken from
the specification's words — "removes record if present, persists; fails with
`NotFoundError` if absent". -/
def remove_contact (pb : PhoneBook) (cid : Int) : Except String PhoneBook :=
  if pb.entries.any (fun c => c.id == cid) then
    let entries := pb.entries.filter (fun c => !(c.id == cid))
    Except.ok { entries := entries, next_id := pb.next_id, file := entries }
  else Except.error "NotFoundError"

/-- `total_pages` of `show_display_contacts` (src/main.py line 340):
`(len(self.entries) + page_size - 1) // page_size`. -/
def total_pages (n page_size : Nat) : Nat :=
  (n + page_size - 1) / page_size

/-- The page slice of `show_display_contacts` (src/main.py lines 345-349):
`self.entries[(page-1)*page_size : (page-1)*page_size + page_size]`. -/
def page_slice (entries : List Contact) (page_size page : Nat) : List Contact :=
  (entries.drop ((page - 1) * page_size)).take page_size

/-- The `'n'` navigation step (src/main.py line 358):
`page = (page % total_pages) + 1`.  Python's `%` raises `ZeroDivisionError`
when `total_pages` is zero, hence the `Option`. -/
def next_page (page tp : Int) : Option Int :=
  if tp = 0 then none else some (page % tp + 1)

/-- The `'b'` navigation step (src/main.py line 360):
`page = (page - 2) % total_pages + 1`, again failing when `total_pages` is
zero.  Lean's `Int.emod` agrees with Python's `%` on positive moduli. -/
def prev_page (page tp : Int) : Option Int :=
  if tp = 0 then none else some ((page - 2) % tp + 1)

theorem validate_contact_contactToRaw (c : Contact) :
    validate_contact (contactToRaw c) = true := rfl

theorem add_contact_eq (pb : PhoneBook) (inp : FieldsInput) :
    add_contact pb inp =
      { entries := pb.entries ++ [mkContact pb.next_id inp],
        next_id := pb.next_id + 1,
        file := pb.entries ++ [mkContact pb.next_id inp] } := by
  simp [add_contact, validate_contact_contactToRaw]

/-- The records appended by a sequence of `add_contact` calls starting at a
given `next_id`. -/
def newRecords (nid : Int) : List FieldsInput → List Contact
  | [] => []
  | inp :: rest => mkContact nid inp :: newRecords (nid + 1) rest

theorem add_seq_entries (inputs : List FieldsInput) :
    ∀ pb : PhoneBook,
      (add_seq pb inputs).entries = pb.entries ++ newRecords pb.next_id inputs := by
  induction inputs with
  | nil => intro pb; simp [add_seq, newRecords]
  | cons inp rest ih =>
    intro pb
    show (add_seq (add_contact pb inp) rest).entries = _
    rw [ih, add_contact_eq]
    simp [newRecords]

theorem newRecords_id_ge (inputs : List FieldsInput) :
    ∀ nid : Int, ∀ c ∈ newRecords nid inputs, nid ≤ c.id := by
  induction inputs with
  | nil => intro nid c hc; simp [newRecords] at hc
  | cons inp rest ih =>
    intro nid c hc
    simp only [newRecords, List.mem_cons] at hc
    rcases hc with rfl | hc
    · simp [mkContact]
    · have := ih (nid + 1) c hc
      omega

theorem newRecords_ids_pairwise (inputs : List FieldsInput) :
    ∀ nid : Int, ((newRecords nid inputs).map Contact.id).Pairwise (· < ·) := by
  induction inputs with
  | nil => intro nid; simp [newRecords]
  | cons inp rest ih =>
    intro nid
    simp only [newRecords, List.map_cons, List.pairwise_cons]
    refine ⟨?_, ih (nid + 1)⟩
    intro x hx
    simp only [List.mem_map] at hx
    obtain ⟨c, hc, rfl⟩ := hx
    have := newRecords_id_ge rest (nid + 1) c hc
    simp only [mkContact]
    omega

theorem foldl_max_spec (cs : List Contact) :
    ∀ a : Int,
      (cs.foldl (fun m x => max m x.id) a = a ∨
        ∃ x ∈ cs, cs.foldl (fun m x => max m x.id) a = x.id) ∧
      a ≤ cs.foldl (fun m x => max m x.id) a ∧
      ∀ x ∈ cs, x.id ≤ cs.foldl (fun m x => max m x.id) a := by
  induction cs with
  | nil => intro a; simp
  | cons c cs ih =>
    intro a
    simp only [List.foldl_cons]
    obtain ⟨h1, h2, h3⟩ := ih (max a c.id)
    refine ⟨?_, le_trans (le_max_left a c.id) h2, ?_⟩
    · rcases h1 with h | ⟨x, hx, h⟩
      · rcases max_cases a c.id with ⟨hm, _⟩ | ⟨hm, _⟩
        · left; rw [h, hm]
        · right; exact ⟨c, by simp, by rw [h, hm]⟩
      · right; exact ⟨x, by simp [hx], h⟩
    · intro x hx
      rcases List.mem_cons.mp hx with rfl | hx
      · exact le_trans (le_max_right a x.id) h2
      · exact h3 x hx

/-- C8: the first id of an empty book is 1; on a nonempty book `get_next_id`
is `max(existing ids) + 1`; the ids appended by any sequence of `add_contact`
calls are strictly increasing, hence unique; and two adds on an empty book
assign ids 1 and 2. -/
theorem add_ids_spec :
    get_next_id [] = 1 ∧
    (∀ (c : Contact) (cs : List Contact), ∃ m : Int,
      get_next_id (c :: cs) = m + 1 ∧ (m = c.id ∨ ∃ x ∈ cs, m = x.id) ∧
      c.id ≤ m ∧ ∀ x ∈ cs, x.id ≤ m) ∧
    (∀ (pb : PhoneBook) (inputs : List FieldsInput),
      (((add_seq pb inputs).entries.drop pb.entries.length).map
        Contact.id).Pairwise (· < ·)) ∧
    (∀ (pb : PhoneBook) (inputs : List FieldsInput),
      (((add_seq pb inputs).entries.drop pb.entries.length).map
        Contact.id).Nodup) ∧
    (∀ i1 i2 : FieldsInput,
      (add_seq emptyBook [i1, i2]).entries.map Contact.id = [1, 2]) := by
  have hdrop : ∀ (pb : PhoneBook) (inputs : List FieldsInput),
      ((add_seq pb inputs).entries.drop pb.entries.length).map Contact.id =
        (newRecords pb.next_id inputs).map Contact.id := by
    intro pb inputs
    rw [add_seq_entries]
    simp
  refine ⟨rfl, ?_, ?_, ?_, ?_⟩
  · intro c cs
    obtain ⟨h1, h2, h3⟩ := foldl_max_spec cs c.id
    refine ⟨cs.foldl (fun m x => max m x.id) c.id, ?_, h1, h2, h3⟩
    rfl
  · intro pb inputs
    rw [hdrop]
    exact newRecords_ids_pairwise inputs pb.next_id
  · intro pb inputs
    rw [hdrop]
    exact (newRecords_ids_pairwise inputs pb.next_id).imp (fun h => ne_of_lt h)
  · intro i1 i2
    rw [add_seq_entries]
    simp [emptyBook, get_next_id, newRecords, mkContact]

theorem sort_contacts_sorted (entries : List Contact) :
    List.Sorted (fun a b : Contact => a.id ≤ b.id) (sort_contacts entries) := by
  haveI : IsTotal Contact (fun a b => a.id ≤ b.id) :=
    ⟨fun a b => le_total a.id b.id⟩
  haveI : IsTrans Contact (fun a b => a.id ≤ b.id) :=
    ⟨fun a b c hab hbc => le_trans hab hbc⟩
  exact List.sorted_insertionSort _ entries

theorem sort_contacts_perm (entries : List Contact) :
    (sort_contacts entries).Perm entries :=
  List.perm_insertionSort _ entries

/-- C9: editing merges field by field — an empty entered value keeps the
existing one, so no field can be cleared; the replacement keeps the record's
id; an edit entering only empty values reproduces the record unchanged; and
the resulting collection is the sorted-by-id permutation of the old one with
the found record replaced, which is also what is persisted. -/
theorem edit_contact_spec (pb : PhoneBook) (cid : Int) (inp : FieldsInput)
    (c : Contact) (h : pb.entries.find? (fun x => x.id == cid) = some c) :
    (∀ s : String, orDefault "" s = s) ∧
    (applyEdit c inp).id = c.id ∧
    applyEdit c ⟨"", "", "", "", "", ""⟩ = c ∧
    (edit_contact pb cid inp).entries.Perm
      (applyEdit c inp :: pb.entries.erase c) ∧
    List.Sorted (fun a b : Contact => a.id ≤ b.id)
      (edit_contact pb cid inp).entries ∧
    (edit_contact pb cid inp).file = (edit_contact pb cid inp).entries := by
  refine ⟨fun s => rfl, rfl, rfl, ?_, ?_, ?_⟩
  · simp only [edit_contact, h]
    exact (sort_contacts_perm _).trans
      (List.perm_append_comm.trans (by simp))
  · simp only [edit_contact, h]
    exact sort_contacts_sorted _
  · simp only [edit_contact, h]

/-- A concrete two-entry book (deliberately not id-sorted) used as input for
the witnesses. -/
def ctA : Contact := ⟨2, "Bob", "Stone", "M", "Acme", "ABC", "222"⟩

def ctB : Contact := ⟨1, "Ann", "smith", "B", "Org", "111", "333"⟩

def exPB : PhoneBook := ⟨[ctA, ctB], 3, [ctA, ctB]⟩

def exEdit : FieldsInput := ⟨"Eve", "", "", "", "", ""⟩

/-- C9 witness: editing id 1 of the concrete book. -/
theorem edit_contact_spec_witness :
    (applyEdit ctB exEdit).id = ctB.id ∧
    List.Sorted (fun a b : Contact => a.id ≤ b.id)
      (edit_contact exPB 1 exEdit).entries ∧
    (edit_contact exPB 1 exEdit).file = (edit_contact exPB 1 exEdit).entries := by
  have h := edit_contact_spec exPB 1 exEdit ctB (by decide)
  exact ⟨h.2.1, h.2.2.2.2.1, h.2.2.2.2.2⟩

/-- C3: `remove_contact` (modelled from the spec, the source offering no
remove operation): when a record with the id is present the operation
succeeds, the collection keeps exactly the other records, and the new
collection is persisted; when absent it fails with `NotFoundError` and — the
model being functional — the original book is untouched. -/
theorem remove_contact_spec (pb : PhoneBook) (cid : Int) :
    (pb.entries.any (fun c => c.id == cid) = true →
      ∃ pb', remove_contact pb cid = Except.ok pb' ∧
        pb'.entries = pb.entries.filter (fun c => !(c.id == cid)) ∧
        pb'.file = pb'.entries ∧
        (∀ c, c ∈ pb'.entries ↔ c ∈ pb.entries ∧ c.id ≠ cid) ∧
        pb'.next_id = pb.next_id) ∧
    (pb.entries.any (fun c => c.id == cid) = false →
      remove_contact pb cid = Except.error "NotFoundError") := by
  constructor
  · intro h
    refine ⟨⟨pb.entries.filter (fun c => !(c.id == cid)), pb.next_id,
      pb.entries.filter (fun c => !(c.id == cid))⟩, ?_, rfl, rfl, ?_, rfl⟩
    · simp [remove_contact, h]
    · intro c
      simp [List.mem_filter]
  · intro h
    simp [remove_contact, h]

/-- C3 witness: removing the present id 1 and the absent id 99 from the
concrete book. -/
theorem remove_contact_spec_witness :
    (∃ pb', remove_contact exPB 1 = Except.ok pb' ∧
      pb'.entries = exPB.entries.filter (fun c => !(c.id == 1)) ∧
      pb'.file = pb'.entries ∧
      (∀ c, c ∈ pb'.entries ↔ c ∈ exPB.entries ∧ c.id ≠ 1) ∧
      pb'.next_id = exPB.next_id) ∧
    remove_contact exPB 99 = Except.error "NotFoundError" :=
  ⟨(remove_contact_spec exPB 1).1 (by decide),
   (remove_contact_spec exPB 99).2 (by decide)⟩

theorem optCheck_iff {α : Type} (o : Option α) (p : α → Bool) :
    optCheck o p = true ↔ ∀ v, o = some v → p v = true := by
  cases o <;> simp [optCheck]

/-- C4 (amended): a record is returned by the search iff it is in the
collection and every present criteria field matches — `id` by exact
equality, `first_name`/`last_name`/`middle_name`/`organization` by
case-insensitive (lowercased) equality, but `work_phone` and
`personal_phone` by plain case-SENSITIVE equality (src/main.py lines
311-318 compare them without `.lower()`). -/
theorem search_matches_iff (entries : List Contact) (fv : Criteria)
    (c : Contact) :
    c ∈ search_contact entries fv ↔
      (c ∈ entries ∧
       (∀ v, fv.id = some v → c.id = v) ∧
       (∀ v, fv.first_name = some v → strLower c.first_name = strLower v) ∧
       (∀ v, fv.last_name = some v → strLower c.last_name = strLower v) ∧
       (∀ v, fv.middle_name = some v → strLower c.middle_name = strLower v) ∧
       (∀ v, fv.organization = some v → strLower c.organization = strLower v) ∧
       (∀ v, fv.work_phone = some v → c.work_phone = v) ∧
       (∀ v, fv.personal_phone = some v → c.personal_phone = v)) := by
  simp only [search_contact, List.mem_filter, matchesCriteria,
    Bool.and_eq_true, optCheck_iff, beq_iff_eq]
  tauto

/-- A contact whose `work_phone` is upper-case, and the criteria searching
for it in lower case. -/
def ctPhone : Contact := ⟨7, "Ann", "Smith", "B", "Org", "ABC", "222"⟩

def critPhone : Criteria := ⟨none, none, none, none, none, some "abc", none⟩

/-- C4 counterexample: the stored `work_phone` "ABC" and the search value
"abc" are equal up to case, yet the search returns nothing — `work_phone`
is compared case-sensitively, contrary to the claim that every text field
matches case-insensitively. -/
theorem search_phone_case_counterexample :
    search_contact [ctPhone] critPhone = [] ∧
    strLower ctPhone.work_phone = strLower "abc" ∧
    critPhone.work_phone = some "abc" ∧
    ctPhone ∈ [ctPhone] := by
  refine ⟨by decide, by decide, rfl, by simp⟩

/-- C6 (amended): with an empty criteria mapping every record matches, so
the search returns the whole collection — not the empty sequence (which it
equals only when the collection itself is empty). -/
theorem search_empty_criteria_all (entries : List Contact) :
    search_contact entries emptyCriteria = entries :=
  List.filter_eq_self.mpr (fun _ _ => rfl)

/-- C6 counterexample: on a one-record collection the empty criteria returns
that record, not the empty result sequence. -/
theorem search_empty_criteria_counterexample :
    search_contact [ctPhone] emptyCriteria = [ctPhone] ∧
    search_contact [ctPhone] emptyCriteria ≠ ([] : List Contact) := by
  refine ⟨rfl, by decide⟩

theorem neg_one_emod (t : Int) (h : 1 ≤ t) : (-1) % t = t - 1 := by
  rw [show (-1 : Int) = (t - 1) + (-1) * t by ring, Int.add_mul_emod_self,
    Int.emod_eq_of_lt (by omega) (by omega)]

theorem total_pages_bounds (n s : Nat) (hs : 1 ≤ s) (hn : 1 ≤ n) :
    n ≤ total_pages n s * s ∧ total_pages n s * s < n + s ∧
      (n ≤ s → total_pages n s = 1) ∧ 1 ≤ total_pages n s := by
  have e1 : n + s - 1 = (n - 1) + s := by omega
  have e2 : total_pages n s = (n - 1) / s + 1 := by
    rw [total_pages, e1, Nat.add_div_right _ hs]
  have h1 := Nat.div_add_mod (n - 1) s
  have h2 : (n - 1) % s < s := Nat.mod_lt _ hs
  have e3 : total_pages n s * s = s * ((n - 1) / s) + s := by rw [e2]; ring
  obtain ⟨t, ht⟩ : ∃ t, s * ((n - 1) / s) = t := ⟨_, rfl⟩
  obtain ⟨r, hr⟩ : ∃ r, (n - 1) % s = r := ⟨_, rfl⟩
  rw [ht, hr] at h1
  rw [hr] at h2
  rw [ht] at e3
  refine ⟨?_, ?_, ?_, ?_⟩
  · rw [e3]; omega
  · rw [e3]; omega
  · intro hns
    rw [e2, Nat.div_eq_of_lt (by omega)]
  · rw [e2]
    exact Nat.le_add_left 1 _

theorem next_page_last (tp : Nat) (h : 1 ≤ tp) :
    next_page (tp : Int) (tp : Int) = some 1 := by
  have h0 : (tp : Int) ≠ 0 := by positivity
  rw [next_page, if_neg h0, Int.emod_self]
  norm_num

theorem prev_page_first (tp : Nat) (h : 1 ≤ tp) :
    prev_page 1 (tp : Int) = some (tp : Int) := by
  have h0 : (tp : Int) ≠ 0 := by positivity
  rw [prev_page, if_neg h0, show (1 - 2 : Int) = -1 by norm_num,
    neg_one_emod _ (by exact_mod_cast h), show ((tp : Int) - 1 + 1) = tp by ring]

/-- C7 (amended for nonempty collections): page `p` shows the elements at
positions `(p-1)*s + i` of the collection; the page count is the ceiling of
`n / s` (characterised by `n ≤ tp*s < n + s`); a page size at least the
collection size gives exactly one page; "next" from the last page wraps to
page 1 and "previous" from page 1 wraps to the last page.  On the empty
collection the page count is 0 and the claim fails. -/
theorem pagination_spec (entries : List Contact) (s p : Nat)
    (hs : 1 ≤ s) (hn : 1 ≤ entries.length) (_hp : 1 ≤ p) :
    (∀ i, i < s → (page_slice entries s p)[i]? = entries[(p - 1) * s + i]?) ∧
    (entries.length ≤ total_pages entries.length s * s ∧
      total_pages entries.length s * s < entries.length + s) ∧
    (entries.length ≤ s → total_pages entries.length s = 1) ∧
    1 ≤ total_pages entries.length s ∧
    next_page (total_pages entries.length s) (total_pages entries.length s) =
      some 1 ∧
    prev_page 1 (total_pages entries.length s) =
      some (total_pages entries.length s) := by
  obtain ⟨hb1, hb2, hb3, hb4⟩ := total_pages_bounds entries.length s hs hn
  refine ⟨?_, ⟨hb1, hb2⟩, hb3, hb4, next_page_last _ hb4, prev_page_first _ hb4⟩
  intro i hi
  simp [page_slice, List.getElem?_take, hi, List.getElem?_drop]

/-- A five-record collection with ids 1..5. -/
def ct (i : Int) : Contact := ⟨i, "f", "l", "m", "o", "w", "p"⟩

def ex5 : List Contact := [ct 1, ct 2, ct 3, ct 4, ct 5]

/-- C7 witness: `page_size = 2`, `page = 1` on the five-record collection —
3 total pages, "next" from page 3 wraps to 1, "previous" from page 1 wraps
to 3. -/
theorem pagination_spec_witness :
    (ex5.length ≤ total_pages ex5.length 2 * 2 ∧
      total_pages ex5.length 2 * 2 < ex5.length + 2) ∧
    1 ≤ total_pages ex5.length 2 ∧
    next_page (total_pages ex5.length 2) (total_pages ex5.length 2) = some 1 ∧
    prev_page 1 (total_pages ex5.length 2) = some (total_pages ex5.length 2) ∧
    (page_slice ex5 2 1)[0]? = ex5[(1 - 1) * 2 + 0]? := by
  have h := pagination_spec ex5 2 1 (by decide) (by decide) (by decide)
  exact ⟨h.2.1, h.2.2.2.1, h.2.2.2.2.1, h.2.2.2.2.2, h.1 0 (by decide)⟩

/-- C7 counterexample: on the empty collection a page size of 1 is larger
than the collection, yet the page count is 0, not 1. -/
theorem pagination_empty_counterexample :
    total_pages ([] : List Contact).length 1 = 0 ∧
    total_pages ([] : List Contact).length 1 ≠ 1 ∧
    next_page 1 (total_pages ([] : List Contact).length 1 : Int) = none := by
  refine ⟨rfl, by decide, rfl⟩

/-- C10: a book whose collection is empty has `total_pages = 0`, and both
navigation steps compute `page % 0`, which has no value (Python raises
`ZeroDivisionError`): navigation is not total on empty stores. -/
theorem pagination_zero_total (pb : PhoneBook) (s : Nat)
    (hpb : pb.entries = []) (hs : 1 ≤ s) :
    total_pages pb.entries.length s = 0 ∧
    next_page 1 (total_pages pb.entries.length s : Int) = none ∧
    prev_page 1 (total_pages pb.entries.length s : Int) = none := by
  rw [hpb]
  have ht : total_pages (List.length ([] : List Contact)) s = 0 := by
    simp only [List.length_nil, total_pages, Nat.zero_add]
    exact Nat.div_eq_of_lt (by omega)
  refine ⟨ht, by rw [ht]; rfl, by rw [ht]; rfl⟩

/-- C10 witness: the freshly created empty book with the default page size
2. -/
theorem pagination_zero_total_witness :
    total_pages emptyBook.entries.length 2 = 0 ∧
    next_page 1 (total_pages emptyBook.entries.length 2 : Int) = none ∧
    prev_page 1 (total_pages emptyBook.entries.length 2 : Int) = none :=
  pagination_zero_total emptyBook 2 rfl (by decide)

end ContactManager
